import Mathlib

/-!
Verification development for the L7Proxy repository (Go).

Shallow embedding of the connection registry (`pkg/proxy/connmanager.go`),
the admission filter (`pkg/proxy/filter.go`), the SNI peeker and the TLS
front door (`pkg/proxy/https.go`), and the HTTP front door handler
(`pkg/proxy/events.go`).  Concurrency is modelled sequentially: the claims
under study speak about quiescent states, so each Go operation becomes a
pure state-transforming function.  Go `int64` metric counters are modelled
as `Int` (the counts involved stay far from the 2^63 wrap), byte buffers as
`List Nat`.
-/

namespace L7Proxy

/-- Go `strings.ToLower` on the ASCII hostnames this program handles:
lowercase every character.  (Defined over the string's character list
so that concrete instances compute.) -/
def goToLower (s : String) : String :=
  String.mk (s.data.map Char.toLower)

/-- Go `strings.HasPrefix`: does `s` start with `pre`?  Defined by
comparing the first `pre.length` characters. -/
def goStartsWith (s pre : String) : Bool :=
  s.data.take pre.data.length == pre.data

/-- A TCP connection, modelled by the byte sequence it will deliver on
reads (used by the SNI-peek claims; the registry treats it opaquely). -/
structure Conn where
  stream : List Nat
deriving Repr, DecidableEq

/-- `ConnMeta` from connmanager.go.  The Go `ID` is the string
`"conn-<n>"` where `<n>` is the value of the atomic sequence counter;
since that formatting is injective in `<n>`, the model carries the
numeric sequence value itself.  `CreatedAt` (a wall-clock time in Go)
is modelled as a `Nat` timestamp supplied by the caller. -/
structure ConnMeta where
  ID : Nat := 0
  ClientAddr : String := ""
  ServerAddr : String := ""
  Hostname : String := ""
  SNI : String := ""
  Protocol : String := ""
  HAProxyAddr : String := ""
  CreatedAt : Nat := 0
deriving Repr, DecidableEq

/-- `ProxyConnection` from connmanager.go: a client/server pair plus
metadata. -/
structure ProxyConnection where
  Client : Conn
  Server : Conn
  Meta : ConnMeta
deriving Repr, DecidableEq

/-- The package-global `metrics` block of five atomic `int64` counters
(connmanager.go, lines 124-130). -/
structure Metrics where
  ClientProxyConns : Int := 0
  ProxyServerConns : Int := 0
  ProxyHAProxyConns : Int := 0
  HTTPConnCount : Int := 0
  HTTPSConnCount : Int := 0
deriving Repr, DecidableEq

/-- `ConnManager` (its `sync.Map` of connections keyed by ID and its
`idSeq` counter) together with the package-global metrics block it
mutates.  The map is modelled as an association list keyed by the
numeric ID; `Add` only ever inserts fresh keys (`idSeq` strictly
increases), so list insertion coincides with map `Store`. -/
structure ConnManager where
  conns : List (Nat × ProxyConnection) := []
  idSeq : Nat := 0
  metrics : Metrics := {}
deriving Repr, DecidableEq

/-- `NewConnManager`: zero-valued manager, zero-valued metrics. -/
def NewConnManager : ConnManager := {}

/-- `NextID` (connmanager.go line 43): atomic increment returning the new
value; the Go code formats it as `"conn-<n>"`. -/
def NextID (m : ConnManager) : Nat × ConnManager :=
  (m.idSeq + 1, { m with idSeq := m.idSeq + 1 })

/-- `Add` (connmanager.go lines 49-69): assigns a fresh ID, stores the
pair, then bumps both side counters, the protocol-family counter chosen
by `strings.HasPrefix(meta.Protocol, "https")`, and the HAProxy counter
when `meta.HAProxyAddr` is non-empty.  Returns the assigned ID. -/
def Add (m : ConnManager) (client server : Conn) (meta : ConnMeta) :
    Nat × ConnManager :=
  let idm := NextID m
  let id := idm.1
  let m := idm.2
  let meta := { meta with ID := id }
  let conns := (id, ProxyConnection.mk client server meta) :: m.conns
  let mtr := m.metrics
  let mtr := { mtr with
    ClientProxyConns := mtr.ClientProxyConns + 1,
    ProxyServerConns := mtr.ProxyServerConns + 1 }
  let mtr :=
    if goStartsWith meta.Protocol "https" then
      { mtr with HTTPSConnCount := mtr.HTTPSConnCount + 1 }
    else
      { mtr with HTTPConnCount := mtr.HTTPConnCount + 1 }
  let mtr :=
    if meta.HAProxyAddr ≠ "" then
      { mtr with ProxyHAProxyConns := mtr.ProxyHAProxyConns + 1 }
    else mtr
  (id, { m with conns := conns, metrics := mtr })

/-- `sync.Map.Load`: the value stored at a key, if any. -/
def mapLoad (id : Nat) : List (Nat × ProxyConnection) → Option ProxyConnection
  | [] => none
  | (k, v) :: t => if k = id then some v else mapLoad id t

/-- `sync.Map.Delete`: drop the entry stored at a key (keys are unique,
so dropping the first occurrence is map deletion). -/
def mapDelete (id : Nat) :
    List (Nat × ProxyConnection) → List (Nat × ProxyConnection)
  | [] => []
  | (k, v) :: t => if k = id then t else (k, v) :: mapDelete id t

/-- `Remove` (connmanager.go lines 72-94): `Load` the entry (no-op when
absent), `Delete` it, then apply the exact inverse metric deltas, chosen
by the *stored* metadata. -/
def Remove (m : ConnManager) (id : Nat) : ConnManager :=
  match mapLoad id m.conns with
  | none => m
  | some pc =>
    let conns := mapDelete id m.conns
    let mtr := m.metrics
    let mtr := { mtr with
      ClientProxyConns := mtr.ClientProxyConns - 1,
      ProxyServerConns := mtr.ProxyServerConns - 1 }
    let mtr :=
      if goStartsWith pc.Meta.Protocol "https" then
        { mtr with HTTPSConnCount := mtr.HTTPSConnCount - 1 }
      else
        { mtr with HTTPConnCount := mtr.HTTPConnCount - 1 }
    let mtr :=
      if pc.Meta.HAProxyAddr ≠ "" then
        { mtr with ProxyHAProxyConns := mtr.ProxyHAProxyConns - 1 }
      else mtr
    { m with conns := conns, metrics := mtr }

/-- `CloseByFilter` (connmanager.go lines 97-110): ranges over the map
and, for each entry matched by the predicate, writes the close preamble
to both streams, closes them, and `Delete`s the entry from the map.
It does NOT touch the metric counters (it never calls `Remove`); its
effect on the registry state is to retain exactly the unmatched
entries. -/
def CloseByFilter (m : ConnManager) (pred : ConnMeta → Bool) : ConnManager :=
  { m with conns := m.conns.filter (fun p => ! pred p.2.Meta) }

/-- `Stats` (connmanager.go lines 113-121): a snapshot of the metadata of
all live entries. -/
def Stats (m : ConnManager) : List ConnMeta :=
  m.conns.map (fun p => p.2.Meta)

/-- `RequestFilter` (filter.go): two allowlists of normalized names,
modelled as lists of keys (Go `map[string]struct\x7b\x7d`, so only
membership is observable), plus the `lastReload` timestamp. -/
structure RequestFilter where
  allowedHosts : List String
  allowedSNIs : List String
  lastReload : Nat := 0
deriving Repr, DecidableEq

/-- `NewRequestFilter` (filter.go lines 19-30): default allowlists. -/
def NewRequestFilter : RequestFilter :=
  { allowedHosts := ["example.com", "www.google.com"],
    allowedSNIs := ["example.com", "www.google.com"] }

/-- `AllowHTTP` (filter.go lines 33-45): lowercase the host, then a
direct map lookup.  The `path` argument is ignored by the Go code.  No
port stripping, no wildcarding. -/
def AllowHTTP (f : RequestFilter) (host _path : String) : Bool :=
  f.allowedHosts.contains (goToLower host)

/-- `AllowSNI` (filter.go lines 48-59): lowercase the SNI, then a direct
map lookup. -/
def AllowSNI (f : RequestFilter) (sni : String) : Bool :=
  f.allowedSNIs.contains (goToLower sni)

/-- `Reload` (filter.go lines 62-84): rebuild both maps from the given
lists, lowercasing each entry, and record the reload time.  (The Go
function always returns `nil`.) -/
def Reload (f : RequestFilter) (hosts snis : List String) (now : Nat) :
    RequestFilter :=
  { f with
    allowedHosts := hosts.map goToLower,
    allowedSNIs := snis.map goToLower,
    lastReload := now }

/-- State of a `bufio.Reader` sitting on a socket after a peek: `buf` is
what was pulled from the socket into the buffer and not yet consumed by
reads; `rest` is what the socket will still deliver. -/
structure BufReader where
  buf : List Nat
  rest : List Nat
deriving Repr, DecidableEq

/-- `bufio.NewReader(conn)` followed by `reader.Peek(n)` on a fresh
reader over a socket delivering `s`: succeeds (without advancing the
read position) iff the stream holds at least `n` bytes, returning the
first `n` bytes and the reader state.  (Go's reader may buffer a few
more bytes than `n`; the split point does not affect the delivered byte
sequence `buf ++ rest`, so the model buffers exactly `n`.) -/
def bufPeek (n : Nat) (s : List Nat) : Option (List Nat × BufReader) :=
  if n ≤ s.length then some (s.take n, BufReader.mk (s.take n) (s.drop n))
  else none

/-- Reading a `connWithBufferedReader` (https.go lines 156-163) to
exhaustion: its `Read` delegates to the `bufio.Reader`, which serves the
buffered bytes first and then reads on from the socket. -/
def readAll (r : BufReader) : List Nat :=
  r.buf ++ r.rest

/-- After `reader.Peek(1024)` has pulled the first 1024 bytes of `s`
into a buffer, reads on the raw socket deliver only the remainder. -/
def rawAfterPeek (s : List Nat) : List Nat :=
  s.drop 1024

/-- `extractSNIFromTLSClientHello` (https.go lines 166-169): the source
is an explicit placeholder (its comment reads `TODO: Implement actual
TLS ClientHello parsing`) returning the hard-coded pair
`("example.com", nil)` for every input.  Result modelled as
`(sni, error)` with `none` for Go's `nil` error. -/
def extractSNIFromTLSClientHello (_data : List Nat) : String × Option String :=
  ("example.com", none)

/-- `peekClientHelloSNI` (https.go lines 136-153): peek 1024 bytes
through a fresh buffered reader, run the extractor, and on success
return the SNI together with the wrapped connection (the buffered
reader interposed before the socket). -/
def peekClientHelloSNI (s : List Nat) : Option (String × BufReader) :=
  match bufPeek 1024 s with
  | none => none
  | some (data, reader) =>
    let r := extractSNIFromTLSClientHello data
    if r.2.isSome || r.1 = "" then none
    else some (r.1, reader)

/-- `parseClientHelloSNI` (https.go lines 130-133): calls
`peekClientHelloSNI` and keeps only the validity bit and the SNI string;
the wrapped connection is discarded. -/
def parseClientHelloSNI (s : List Nat) : Bool × String :=
  match peekClientHelloSNI s with
  | none => (false, "")
  | some (sni, _) => (sni != "", sni)

/-- `handleTLSWithTermination` (https.go lines 39-80), viewed as a
function of the client socket's byte stream: on success it returns the
byte sequence the *registered client-side handle* will deliver to the
byte pump, paired with the registered metadata.  The handler calls
`parseClientHelloSNI` (so the wrapped conn is discarded), checks the
filter, dials HAProxy (`dialOk` models the dial outcome), and then
passes the RAW `clientConn` to `cm.Add` — whose future reads miss the
bytes sitting in the discarded buffered reader. -/
def handleTLSWithTermination (f : RequestFilter) (haproxyAddress : String)
    (clientStream : List Nat) (clientAddr serverAddr : String)
    (dialOk : Bool) (now : Nat) : Option (List Nat × ConnMeta) :=
  let vs := parseClientHelloSNI clientStream
  if !vs.1 || vs.2 = "" then none
  else if !(AllowSNI f vs.2) then none
  else if !dialOk then none
  else some (rawAfterPeek clientStream,
    { ClientAddr := clientAddr, ServerAddr := serverAddr, SNI := vs.2,
      Protocol := "https_tls_termination", HAProxyAddr := haproxyAddress,
      CreatedAt := now })

/-- `handleTLSPassthrough` (https.go lines 83-127), same view: here the
code sets `clientConn = wrappedConn` before dialing the destination and
registering, so the registered client side delivers the buffered bytes
first — i.e. the whole stream from byte 0. -/
def handleTLSPassthrough (f : RequestFilter) (clientStream : List Nat)
    (clientAddr serverAddr : String) (dialOk : Bool) (now : Nat) :
    Option (List Nat × ConnMeta) :=
  match peekClientHelloSNI clientStream with
  | none => none
  | some (sni, wrapped) =>
    if sni = "" then none
    else if !(AllowSNI f sni) then none
    else if !dialOk then none
    else some (readAll wrapped,
      { ClientAddr := clientAddr, ServerAddr := serverAddr, SNI := sni,
        Protocol := "https_tls_passthrough", CreatedAt := now })

/-- Observable steps of `handleHTTPProxy` (events.go lines 95-153).
`httpError s msg` is a call of Go's `http.Error(w, msg, s)` (which
writes the status line and `msg` plus a newline through the
ResponseWriter); `hijack` marks a successful `hj.Hijack()`; `dial`
records the upstream dial attempt and its outcome; `addConn` /
`removeConn` are the registry calls; `closeClient` / `closeServer` are
explicit `Close()` calls on the hijacked sockets. -/
inductive HEvent where
  | httpError (status : Nat) (msg : String)
  | hijack
  | dial (addr : String) (ok : Bool)
  | addConn
  | forwardRequest (ok : Bool)
  | pump
  | closeClient
  | closeServer
  | removeConn
deriving Repr, DecidableEq

/-- `handleHTTPProxy` (events.go lines 95-153) as the sequence of
observable steps it performs, as a function of the admission decision
and the outcomes of the hijack, the upstream dial, and the request
forward.  Branches, in source order: filter denial (403 before any
hijack); ResponseWriter not a Hijacker (500); `Hijack()` error (500);
dial failure (`http.Error` 502 issued AFTER the hijack, then
`clientConn.Close()`); forward failure (`closeConnPair`); success
(pump, then `closeConnPair`, which closes client then server then calls
`Remove`). -/
def handleHTTPProxy (f : RequestFilter) (host path : String)
    (isHijacker hijackSucceeds dialSucceeds forwardSucceeds : Bool) :
    List HEvent :=
  if !(AllowHTTP f host path) then
    [HEvent.httpError 403 "Blocked by proxy filter"]
  else if !isHijacker then
    [HEvent.httpError 500 "Hijacking not supported"]
  else if !hijackSucceeds then
    [HEvent.httpError 500 "Hijacking failed"]
  else if !dialSucceeds then
    [HEvent.hijack, HEvent.dial (host ++ ":80") false,
     HEvent.httpError 502 ("Failed to dial upstream server " ++ host),
     HEvent.closeClient]
  else if !forwardSucceeds then
    [HEvent.hijack, HEvent.dial (host ++ ":80") true, HEvent.addConn,
     HEvent.forwardRequest false,
     HEvent.closeClient, HEvent.closeServer, HEvent.removeConn]
  else
    [HEvent.hijack, HEvent.dial (host ++ ":80") true, HEvent.addConn,
     HEvent.forwardRequest true, HEvent.pump,
     HEvent.closeClient, HEvent.closeServer, HEvent.removeConn]

/-- The responses the client actually receives through the
ResponseWriter.  Per net/http semantics, once a handler has hijacked
the connection, `WriteHeader` / `Write` on the ResponseWriter are
discarded (the server no longer manages the connection), so `httpError`
events after a `hijack` event never reach the client. -/
def clientResponses : List HEvent → List (Nat × String)
  | [] => []
  | HEvent.hijack :: _ => []
  | HEvent.httpError s msg :: t => (s, msg) :: clientResponses t
  | _ :: t => clientResponses t

/-- An operation on the registry: the two mutating entry points of
`ConnManager` that the front doors use (`Add` on successful dial,
`Remove` on pump completion). -/
inductive RegOp where
  | add (client server : Conn) (meta : ConnMeta)
  | remove (id : Nat)

/-- Apply one registry operation. -/
def applyOp (m : ConnManager) : RegOp → ConnManager
  | RegOp.add c s meta => (Add m c s meta).2
  | RegOp.remove id => Remove m id

/-- Apply a sequence of registry operations in order. -/
def applyOps (m : ConnManager) (ops : List RegOp) : ConnManager :=
  ops.foldl applyOp m

/-- The five-counter exactness property: each metric counter equals the
number of registered pairs matching its predicate — both side counters
count all pairs, the https counter counts pairs whose protocol starts
with "https", the http counter counts the rest, and the HAProxy counter
counts pairs with a non-empty `HAProxyAddr`. -/
def metricsMatch (m : ConnManager) : Prop :=
  m.metrics.ClientProxyConns = (m.conns.length : Int)
  ∧ m.metrics.ProxyServerConns = (m.conns.length : Int)
  ∧ m.metrics.HTTPSConnCount =
      ((m.conns.filter (fun p => goStartsWith p.2.Meta.Protocol "https")).length : Int)
  ∧ m.metrics.HTTPConnCount =
      ((m.conns.filter (fun p => !(goStartsWith p.2.Meta.Protocol "https"))).length : Int)
  ∧ m.metrics.ProxyHAProxyConns =
      ((m.conns.filter (fun p => p.2.Meta.HAProxyAddr != "")).length : Int)

theorem countP_mapDelete_load (id : Nat) (pc : ProxyConnection)
    (p : Nat × ProxyConnection → Bool) :
    ∀ l : List (Nat × ProxyConnection), mapLoad id l = some pc →
      (mapDelete id l).countP p + (if p (id, pc) then 1 else 0) = l.countP p
  | [], h => by simp [mapLoad] at h
  | (k, v) :: t, h => by
    by_cases hk : k = id
    · subst hk
      simp [mapLoad] at h
      subst h
      simp [mapDelete, List.countP_cons]
    · simp only [mapLoad, if_neg hk] at h
      have ih := countP_mapDelete_load id pc p t h
      simp only [mapDelete, if_neg hk, List.countP_cons]
      omega

theorem metricsMatch_Add (m : ConnManager) (c s : Conn) (meta : ConnMeta)
    (h : metricsMatch m) : metricsMatch (Add m c s meta).2 := by
  obtain ⟨h1, h2, h3, h4, h5⟩ := h
  by_cases hp : goStartsWith meta.Protocol "https" <;>
    by_cases hha : meta.HAProxyAddr = "" <;>
      simp [metricsMatch, Add, NextID, List.filter_cons, hp, hha,
        h1, h2, h3, h4, h5]

theorem metricsMatch_Remove (m : ConnManager) (id : Nat)
    (h : metricsMatch m) : metricsMatch (Remove m id) := by
  obtain ⟨h1, h2, h3, h4, h5⟩ := h
  unfold Remove
  cases hl : mapLoad id m.conns with
  | none => exact ⟨h1, h2, h3, h4, h5⟩
  | some pc =>
    have hlen := countP_mapDelete_load id pc (fun _ => true) m.conns hl
    have hhttps := countP_mapDelete_load id pc
      (fun q => goStartsWith q.2.Meta.Protocol "https") m.conns hl
    have hhttp := countP_mapDelete_load id pc
      (fun q => !(goStartsWith q.2.Meta.Protocol "https")) m.conns hl
    have hhap := countP_mapDelete_load id pc
      (fun q => q.2.Meta.HAProxyAddr != "") m.conns hl
    simp only [List.countP_eq_length_filter] at hlen hhttps hhttp hhap
    by_cases hp : goStartsWith pc.Meta.Protocol "https" <;>
      by_cases hh : pc.Meta.HAProxyAddr = "" <;>
        simp only [hp, hh, if_true, if_false, Bool.not_true, Bool.not_false,
          bne_self_eq_false, ne_eq, not_true_eq_false, not_false_eq_true,
          if_neg, if_pos] at hlen hhttps hhttp hhap ⊢ <;>
        refine ⟨?_, ?_, ?_, ?_, ?_⟩ <;>
        simp_all [metricsMatch, List.filter_true] <;>
        omega

/-- C4: for every sequence of add and remove operations on the registry
starting from a fresh manager, at quiescence each of the five metric
counters equals the exact count of registered pairs matching its
predicate: both side counters count all registered pairs, the https
counter counts pairs whose protocol starts with "https", the http
counter counts the rest, and the HAProxy (via-termination) counter
counts pairs with a non-empty termination address. -/
theorem c4_metrics_exact_after_ops (ops : List RegOp) :
    metricsMatch (applyOps NewConnManager ops) := by
  have step : ∀ (ops : List RegOp) (m : ConnManager), metricsMatch m →
      metricsMatch (applyOps m ops) := by
    intro ops
    induction ops with
    | nil => intro m hm; exact hm
    | cons op t ih =>
      intro m hm
      have hstep : metricsMatch (applyOp m op) := by
        cases op with
        | add c s meta => exact metricsMatch_Add m c s meta hm
        | remove id => exact metricsMatch_Remove m id hm
      exact ih (applyOp m op) hstep
  exact step ops NewConnManager ⟨rfl, rfl, rfl, rfl, rfl⟩

/-- C10: `Add` classifies protocols by string prefix test alone: for any
metadata whose `Protocol` does not start with "https" — including the
empty string and values outside the documented protocol set — `Add`
increments the http counter, and `Remove` of that entry decrements it
back, so unrecognized protocol strings are counted as HTTP
connections. -/
theorem c10_non_https_counts_as_http (m : ConnManager) (c s : Conn)
    (meta : ConnMeta) (h : goStartsWith meta.Protocol "https" = false) :
    (Add m c s meta).2.metrics.HTTPConnCount = m.metrics.HTTPConnCount + 1
    ∧ (Remove (Add m c s meta).2 (Add m c s meta).1).metrics.HTTPConnCount
        = m.metrics.HTTPConnCount := by
  constructor
  · by_cases hha : meta.HAProxyAddr = "" <;> simp [Add, NextID, h, hha]
  · by_cases hha : meta.HAProxyAddr = "" <;>
      simp [Add, NextID, Remove, mapLoad, mapDelete, h, hha]

/-- Witness for C10: an unrecognized protocol string ("gopher") is
counted as an HTTP connection by `Add` and uncounted by `Remove`. -/
theorem c10_witness :
    goStartsWith ({ Protocol := "gopher" } : ConnMeta).Protocol "https" = false
    ∧ ((Add NewConnManager (Conn.mk []) (Conn.mk [])
          { Protocol := "gopher" }).2.metrics.HTTPConnCount
        = NewConnManager.metrics.HTTPConnCount + 1
      ∧ (Remove (Add NewConnManager (Conn.mk []) (Conn.mk [])
            { Protocol := "gopher" }).2
          (Add NewConnManager (Conn.mk []) (Conn.mk [])
            { Protocol := "gopher" }).1).metrics.HTTPConnCount
        = NewConnManager.metrics.HTTPConnCount) :=
  ⟨by decide,
   c10_non_https_counts_as_http NewConnManager (Conn.mk []) (Conn.mk [])
     { Protocol := "gopher" } (by decide)⟩

/-- The one-entry registry state used to evaluate claim C1: a fresh
manager after a single `Add` of an HTTP pair. -/
def c1State : ConnManager :=
  (Add NewConnManager (Conn.mk []) (Conn.mk [])
    { ClientAddr := "cl", ServerAddr := "sv", Protocol := "http" }).2

/-- C1 (evaluation of the code at the failing input): `CloseByFilter`
with the always-true predicate empties the snapshot for EVERY state but
never touches the metric counters (it deletes entries without calling
`Remove`), so after one `Add` of an HTTP pair followed by a close-all
sweep the snapshot is empty while client/server/http counters are still
1 — contradicting the claim that all five counters are zero. -/
theorem c1_close_all_empties_snapshot_but_not_counters :
    (∀ m : ConnManager,
      Stats (CloseByFilter m (fun _ => true)) = []
      ∧ (CloseByFilter m (fun _ => true)).metrics = m.metrics)
    ∧ Stats (CloseByFilter c1State (fun _ => true)) = []
    ∧ (CloseByFilter c1State (fun _ => true)).metrics.ClientProxyConns = 1
    ∧ (CloseByFilter c1State (fun _ => true)).metrics.ProxyServerConns = 1
    ∧ (CloseByFilter c1State (fun _ => true)).metrics.HTTPConnCount = 1
    ∧ (CloseByFilter c1State (fun _ => true)).metrics.HTTPSConnCount = 0
    ∧ (CloseByFilter c1State (fun _ => true)).metrics.ProxyHAProxyConns = 0 := by
  refine ⟨fun m => ⟨?_, rfl⟩, by decide, by decide, by decide, by decide,
    by decide, by decide⟩
  simp [Stats, CloseByFilter]

set_option maxRecDepth 8000 in
/-- C3 (evaluation of the code at the failing input): the TLS record
header validation the claim describes does not exist in the source —
`extractSNIFromTLSClientHello` is an explicit placeholder that returns
`("example.com", nil)` for every byte sequence.  Evaluated here on a
1024-byte buffer of zeros, whose record header is invalid on all three
counts (content_type 0x00, version_major 0x00, and no handshake data):
extraction succeeds with a hostname instead of failing with NotTLS, and
the peeker hands back a wrapped connection. -/
theorem c3_stub_accepts_invalid_record_header :
    extractSNIFromTLSClientHello (List.replicate 1024 0) = ("example.com", none)
    ∧ peekClientHelloSNI (List.replicate 1024 0)
        = some ("example.com", BufReader.mk (List.replicate 1024 0) []) := by
  constructor
  · rfl
  · rfl

/-- C5: for every stream accepted by the SNI peeker, reading the wrapped
connection to exhaustion yields exactly the byte sequence the underlying
socket would have delivered from byte 0 — the peek is
non-destructive. -/
theorem c5_peek_nondestructive (s : List Nat) (sni : String) (r : BufReader)
    (h : peekClientHelloSNI s = some (sni, r)) :
    readAll r = s := by
  unfold peekClientHelloSNI bufPeek at h
  by_cases hlen : 1024 ≤ s.length
  · simp only [if_pos hlen, extractSNIFromTLSClientHello] at h
    simp at h
    obtain ⟨-, hr⟩ := h
    subst hr
    simp [readAll]
  · simp [if_neg hlen] at h

set_option maxRecDepth 8000 in
/-- Witness for C5 at a concrete 1024-byte stream. -/
theorem c5_witness :
    peekClientHelloSNI (List.replicate 1024 0)
      = some ("example.com", BufReader.mk (List.replicate 1024 0) [])
    ∧ readAll (BufReader.mk (List.replicate 1024 0) [])
        = List.replicate 1024 0 :=
  ⟨rfl,
   c5_peek_nondestructive (List.replicate 1024 0) "example.com"
     (BufReader.mk (List.replicate 1024 0) []) rfl⟩

/-- The client stream used to evaluate claim C2: 1024 bytes of 0x16
(the peeked portion) followed by three further bytes. -/
def c2Stream : List Nat := List.replicate 1024 22 ++ [7, 7, 7]

set_option maxRecDepth 8000 in
/-- C2 (evaluation of the code at the failing input): in termination
mode the handler registers the RAW socket — `parseClientHelloSNI`
discards the wrapped connection — so the registered client side
delivers only the bytes after the peeked prefix and the byte pump does
NOT start with the peeked ClientHello bytes; in passthrough mode the
wrapped stream is registered and the full stream is delivered from
byte 0. -/
theorem c2_termination_registers_raw_socket :
    (handleTLSWithTermination NewRequestFilter "127.0.0.1:8443" c2Stream
        "cl" "ha" true 0).map Prod.fst = some (List.drop 1024 c2Stream)
    ∧ List.drop 1024 c2Stream ≠ c2Stream
    ∧ (handleTLSPassthrough NewRequestFilter c2Stream "cl" "dst" true 0).map
        Prod.fst = some c2Stream := by
  refine ⟨rfl, ?_, ?_⟩
  · intro hcontra
    have hlen := congrArg List.length hcontra
    simp [c2Stream] at hlen
  · rfl

/-- Modelled from the spec (used only to state claim C6's port-stripping
clause): the host's authority component with any ":port" suffix
removed — the characters before the first ':'. -/
def specHostNoPort (host : String) : String :=
  (host.data.takeWhile (fun c => c ≠ ':')).asString

/-- C6 counterexample: the claim predicts `AllowHTTP` accepts
"example.com:80" against the default allowlist (its port-stripped,
lowercased host "example.com" is a member), but the code performs no
port stripping and rejects it. -/
theorem c6_counterexample :
    goToLower (specHostNoPort "example.com:80")
        ∈ NewRequestFilter.allowedHosts
    ∧ AllowHTTP NewRequestFilter "example.com:80" "/" = false := by
  constructor
  · decide
  · decide

/-- C6 amended: `AllowHTTP` returns true iff the lowercased host string,
taken verbatim (no ":port" stripping), is exactly a member of the HTTP
allowlist — case-insensitive exact matching, no wildcard or suffix
matching. -/
theorem c6_exact_match_without_port_stripping (f : RequestFilter)
    (host path : String) :
    AllowHTTP f host path = true ↔ goToLower host ∈ f.allowedHosts := by
  simp [AllowHTTP]

/-- The trace of `handleHTTPProxy` at claim C7's failing input: host
allowed by the default filter, hijack succeeds, upstream dial fails. -/
def c7Trace : List HEvent :=
  handleHTTPProxy NewRequestFilter "example.com" "/" true true false true

/-- C7 (evaluation of the code at the failing input): on upstream dial
failure the handler does call `http.Error(w, ..., 502)`, but only AFTER
it has hijacked the connection, so the response is discarded and the
client receives nothing before `clientConn.Close()`; no registry entry
is created (the `Add` happens only after a successful dial). -/
theorem c7_dial_failure_502_never_reaches_client :
    HEvent.httpError 502 "Failed to dial upstream server example.com"
        ∈ c7Trace
    ∧ clientResponses c7Trace = []
    ∧ HEvent.addConn ∉ c7Trace
    ∧ HEvent.closeClient ∈ c7Trace := by
  refine ⟨?_, ?_, ?_, ?_⟩ <;> decide

/-- The trace of `handleHTTPProxy` at a host denied by the default
filter (used for claim C8). -/
def c8Trace : List HEvent :=
  handleHTTPProxy NewRequestFilter "evil.test" "/" true true true true

/-- C8 counterexample: on a denied host the client does receive the 403
with body "Blocked by proxy filter", but the handler performs no
explicit close of the client connection — it returns to the HTTP server
without hijacking, so the claim's "closes the client" conjunct fails. -/
theorem c8_counterexample :
    clientResponses c8Trace = [(403, "Blocked by proxy filter")]
    ∧ HEvent.closeClient ∉ c8Trace
    ∧ HEvent.hijack ∉ c8Trace := by
  refine ⟨?_, ?_, ?_⟩ <;> decide

/-- C8 amended: when the admission filter denies the Host, the handler
responds 403 Forbidden with body "Blocked by proxy filter" (delivered:
the ResponseWriter is not yet hijacked), performs no upstream dial,
creates no registry entry, and returns without closing the client
connection itself (connection lifetime is left to the HTTP server). -/
theorem c8_denied_host_403_no_dial_no_entry (f : RequestFilter)
    (host path : String) (ih hs ds fs : Bool)
    (hdeny : AllowHTTP f host path = false) :
    handleHTTPProxy f host path ih hs ds fs
      = [HEvent.httpError 403 "Blocked by proxy filter"]
    ∧ clientResponses (handleHTTPProxy f host path ih hs ds fs)
      = [(403, "Blocked by proxy filter")]
    ∧ (∀ a b, HEvent.dial a b ∉ handleHTTPProxy f host path ih hs ds fs)
    ∧ HEvent.addConn ∉ handleHTTPProxy f host path ih hs ds fs
    ∧ HEvent.closeClient ∉ handleHTTPProxy f host path ih hs ds fs := by
  simp [handleHTTPProxy, hdeny, clientResponses]

/-- Witness for C8 at the concrete denied host "evil.test". -/
theorem c8_witness :
    AllowHTTP NewRequestFilter "evil.test" "/" = false
    ∧ handleHTTPProxy NewRequestFilter "evil.test" "/" true true true true
        = [HEvent.httpError 403 "Blocked by proxy filter"] :=
  ⟨by decide,
   (c8_denied_host_403_no_dial_no_entry NewRequestFilter "evil.test" "/"
     true true true true (by decide)).1⟩

/-- Filter states reachable from `NewRequestFilter` by any sequence of
`Reload` calls. -/
inductive FilterReachable : RequestFilter → Prop where
  | init : FilterReachable NewRequestFilter
  | reload (f : RequestFilter) (hosts snis : List String) (now : Nat) :
      FilterReachable f → FilterReachable (Reload f hosts snis now)

/-- Filter states reachable by `Reload` calls none of whose input lists
contains a string that lowercases to the empty string. -/
inductive FilterReachableNoEmpty : RequestFilter → Prop where
  | init : FilterReachableNoEmpty NewRequestFilter
  | reload (f : RequestFilter) (hosts snis : List String) (now : Nat) :
      "" ∉ hosts.map goToLower → "" ∉ snis.map goToLower →
      FilterReachableNoEmpty f →
      FilterReachableNoEmpty (Reload f hosts snis now)

/-- C9 counterexample: a state reachable by one `Reload` whose lists
contain the empty string accepts the empty host and the empty SNI —
the code never special-cases empty inputs, so "empty inputs always
return false" fails on reachable states. -/
theorem c9_counterexample :
    FilterReachable (Reload NewRequestFilter [""] [""] 0)
    ∧ AllowHTTP (Reload NewRequestFilter [""] [""] 0) "" "/" = true
    ∧ AllowSNI (Reload NewRequestFilter [""] [""] 0) "" = true :=
  ⟨FilterReachable.reload NewRequestFilter [""] [""] 0 FilterReachable.init,
   by decide, by decide⟩

/-- C9 amended: empty host and empty SNI are rejected in the initial
state and in every state reached by `Reload` calls whose input lists
never contain a string lowercasing to the empty string (the initial
allowlists contain no empty entry; `Reload` can introduce one, and only
then does an empty input pass). -/
theorem c9_empty_inputs_rejected (f : RequestFilter)
    (h : FilterReachableNoEmpty f) :
    AllowHTTP f "" "/" = false ∧ AllowSNI f "" = false := by
  induction h with
  | init => exact ⟨by decide, by decide⟩
  | reload f hosts snis now hh hs _ _ =>
    constructor
    · have : goToLower "" = "" := rfl
      simp only [AllowHTTP, Reload, this]
      simpa using hh
    · have : goToLower "" = "" := rfl
      simp only [AllowSNI, Reload, this]
      simpa using hs

/-- Witness for C9 at the initial filter state. -/
theorem c9_witness :
    AllowHTTP NewRequestFilter "" "/" = false
    ∧ AllowSNI NewRequestFilter "" = false :=
  c9_empty_inputs_rejected NewRequestFilter FilterReachableNoEmpty.init

end L7Proxy
